import Mathlib

/-!
Verification of `ligpy/analysis_tools.py`.

The Python module post-processes ODE-solver output: it loads segmented
result files, builds species/index mappings, and computes elemental
analyses, carbon functional-group distributions, lumped-phase yields and
a text report.  This file gives a shallow embedding of those functions
over exact rationals (`ℚ` in place of float64) and proves the stated
properties.  Division follows numpy semantics: dividing by zero yields
`nan`/`inf` values rather than raising, which the `PyFloat` type models.

The static species-property table `MW` (from `constants.py`) is treated
as a parameter: a list of `Entry` records, one per species, carrying the
phase tag, subfamily tag, and the elemental / functional-group
contribution vectors.  Numeric parsing of text tokens is likewise a
parameter `pf : String → ℚ`.
-/

/-- Result of a numpy floating-point division: a finite value, `nan`
(from 0/0), or a signed infinity (from x/0 with x ≠ 0). -/
inductive PyFloat where
  | val (q : ℚ)
  | nan
  | inf
  | neginf
deriving DecidableEq

/-- numpy division of two finite values: `0/0 = nan`, `x/0 = ±inf`,
otherwise exact. -/
def fdiv (a b : ℚ) : PyFloat :=
  if b = 0 then (if a = 0 then PyFloat.nan else if 0 < a then PyFloat.inf else PyFloat.neginf)
  else PyFloat.val (a / b)

/-- Addition on `PyFloat` (nan-propagating, `inf + (-inf) = nan`). -/
def PyFloat.add : PyFloat → PyFloat → PyFloat
  | PyFloat.val a, PyFloat.val b => PyFloat.val (a + b)
  | PyFloat.nan, _ => PyFloat.nan
  | _, PyFloat.nan => PyFloat.nan
  | PyFloat.inf, PyFloat.neginf => PyFloat.nan
  | PyFloat.neginf, PyFloat.inf => PyFloat.nan
  | PyFloat.inf, _ => PyFloat.inf
  | _, PyFloat.inf => PyFloat.inf
  | PyFloat.neginf, _ => PyFloat.neginf
  | _, PyFloat.neginf => PyFloat.neginf

/-- Sum of a 3-vector (models `numpy.ndarray.sum` on a length-3 array). -/
def sum3 (v : Fin 3 → ℚ) : ℚ := v 0 + v 1 + v 2

/-- Sum of a 7-vector. -/
def sum7 (v : Fin 7 → ℚ) : ℚ := v 0 + v 1 + v 2 + v 3 + v 4 + v 5 + v 6

/-- Sum of an 8-vector. -/
def sum8 (v : Fin 8 → ℚ) : ℚ := v 0 + v 1 + v 2 + v 3 + v 4 + v 5 + v 6 + v 7

/-- Sum of a 3-vector of `PyFloat`s, left to right. -/
def sumF3 (v : Fin 3 → PyFloat) : PyFloat := ((v 0).add (v 1)).add (v 2)

/-- One row of the `MW` table from `constants.py`:
`MW[name] = [molecular weight, phase tag, subfamily tag, elemental 3-vector,
functional-group 7-vector]`. -/
structure Entry where
  name : String
  mw : ℚ
  phase : String
  subfam : String
  elem : Fin 3 → ℚ
  cfun : Fin 7 → ℚ

/-- The tar phase tags used by `tar_elem_analysis` and `generate_report`:
`set(['t', 'lt', 'H2O'])`. -/
def tarTags : List String := ["t", "lt", "H2O"]

/-! ### Python `list.sort()` on species names

`load_results` sorts the species list with `list.sort()`, which orders
strings lexicographically by code point.  We embed that order as a
boolean comparison on the underlying character lists and an insertion
sort. -/

/-- Lexicographic (code-point) comparison of character lists, the order
used by Python string comparison. -/
def charListLe : List Char → List Char → Bool
  | [], _ => true
  | _ :: _, [] => false
  | a :: as, b :: bs =>
    if a.val.toNat < b.val.toNat then true
    else if b.val.toNat < a.val.toNat then false
    else charListLe as bs

/-- Python string `<=` comparison. -/
def strLeB (a b : String) : Bool := charListLe a.data b.data

/-- Insert a string into a sorted list (helper for the sort). -/
def insertSpec (s : String) : List String → List String
  | [] => [s]
  | t :: ts => if strLeB s t then s :: t :: ts else t :: insertSpec s ts

/-- Python `list.sort()` on a list of strings (insertion sort; only the
sorted result matters). -/
def pySort (l : List String) : List String := l.foldr insertSpec []

/-! ### Python dict model

`load_results` builds `speciesindices_ddasac` with
`for i, species in enumerate(specieslist_ddasac): d[species] = i`
and `indices_to_species_ddasac = dict(zip(d.values(), d.keys()))`.
We model dicts as association lists with insertion-order update
semantics. -/

/-- Association-list lookup (Python `d[k]`, as an `Option`). -/
def assocLookup {α β : Type} [DecidableEq α] (k : α) : List (α × β) → Option β
  | [] => none
  | p :: ps => if p.1 = k then some p.2 else assocLookup k ps

/-- Python dict assignment `d[k] = v`: overwrite in place if the key is
present, else append. -/
def upsert {α β : Type} [DecidableEq α] (d : List (α × β)) (k : α) (v : β) :
    List (α × β) :=
  if d.any (fun p => decide (p.1 = k)) then
    d.map (fun p => if p.1 = k then (k, v) else p)
  else d ++ [(k, v)]

/-- The loop `for i, species in enumerate(lst): d[species] = i`, starting
from accumulator `d` and counter `i`. -/
def buildIndices (d : List (String × ℕ)) (i : ℕ) : List String → List (String × ℕ)
  | [] => d
  | s :: rest => buildIndices (upsert d s i) (i + 1) rest

/-- The `speciesindices_ddasac` dict built from the model-definition
species order (lines 108-110). -/
def speciesindices_assoc (l : List String) : List (String × ℕ) :=
  buildIndices [] 0 l

/-- Lookup in `speciesindices_ddasac`. -/
def speciesindices_of (l : List String) (s : String) : Option ℕ :=
  assocLookup s (speciesindices_assoc l)

/-- `dict(zip(d.values(), d.keys()))` (lines 111-112): the pairs of the
dict with key and value swapped, looked up by index. -/
def indices_to_species_of (l : List String) (i : ℕ) : Option String :=
  assocLookup i ((speciesindices_assoc l).map (fun p => (p.2, p.1)))

/-! ### `read_results_files` (lines 143-182)

A results file is a list of lines, each line already split on tabs into
its fields (Python `line.split('\t')`).  The space-level split of field
0 (`line.split('\t')[0].split(' ')`) is embedded as `pySplit`.  Numeric
parsing of a token is the parameter `pf`. -/

/-- Split a character list on a separator character, keeping empty
groups (Python `str.split(sep)` semantics). -/
def splitAux (c : Char) : List Char → List (List Char)
  | [] => [[]]
  | x :: xs =>
    match splitAux c xs with
    | [] => [[]]
    | g :: gs => if x = c then [] :: g :: gs else (x :: g) :: gs

/-- Python `s.split(c)` for a single-character separator. -/
def pySplit (c : Char) (s : String) : List String :=
  (splitAux c s.data).map (fun l => String.mk l)

/-- `read_results_files`: `num_lines = (number of lines) - 7`; the data
lines are those with index `1 <= i < num_lines + 1`; per data line,
`t` is the second space-token of tab-field 0, the concentrations are
tab-fields `1:-2`, and `T` is tab-field `-2`. -/
def read_results_files (pf : String → ℚ) (lines : List (List String)) :
    List ℚ × List (List ℚ) × List ℚ :=
  let num_lines := lines.length - 7
  let data := (lines.drop 1).take num_lines
  (data.map (fun f => pf ((pySplit ' ' (f.headD "")).getD 1 "")),
   data.map (fun f => ((f.drop 1).take (f.length - 3)).map pf),
   data.map (fun f => pf (f.getD (f.length - 2) "")))

/-! ### `load_results` (lines 13-140) -/

/-- Concatenation of the time arrays of two consecutive segments
(line 124): `t = np.concatenate((t, t[-1] + t2[1:]))`. -/
def combine_t (t1 t2 : List ℚ) : List ℚ :=
  t1 ++ (t2.drop 1).map (fun x => t1.getLastD 0 + x)

/-- Concatenation of a later `(t, y, T)` segment onto the running
accumulated segment (lines 123-125 and 132-134): the later segment's
first row is dropped from all three arrays and its times are offset by
the running end time. -/
def combine_segment (acc seg : List ℚ × List (List ℚ) × List ℚ) :
    List ℚ × List (List ℚ) × List ℚ :=
  (combine_t acc.1 seg.1, acc.2.1 ++ seg.2.1.drop 1, acc.2.2 ++ seg.2.2.drop 1)

/-- The nine scalar program parameters unpickled from
`prog_params.pkl` (indices 0-8 of the pickled list). -/
structure ProgParams where
  end_time : ℚ
  output_time_step : ℚ
  initial_T : ℚ
  heating_rate : ℚ
  max_T : ℚ
  atol : ℚ
  rtol : ℚ
  plant : String
  cool_time : ℚ

/-- The on-disk inputs that `load_results(path)` consults.  `none`
models a missing file.  `modelc_species` is the comma-separated species
enumeration recovered from the marker in `model.c` (lines 87-104).
Each `out` file is a list of lines, each line split on tabs. -/
structure FS where
  results_dir_exists : Bool
  prog_params : Option ProgParams
  modelc_species : Option (List String)
  out1 : Option (List (List String))
  out2 : Option (List (List String))
  out3 : Option (List (List String))

/-- Errors raised by `load_results`: `ConfigurationError` models the
`ValueError` at line 68 (missing `results_dir`); `InputFormatError`
models the `IOError` at line 84 (missing `ddasac_results_1.out`); the
other two model the implicit `IOError`s from opening a missing
`prog_params.pkl` or `model.c`. -/
inductive LoadError where
  | ConfigurationError
  | MissingParamsFile
  | MissingModelFile
  | InputFormatError
deriving DecidableEq

/-- Successful reads performed by `load_results`, in order, used to
state that an early failure loads nothing. -/
inductive ReadEvent where
  | readParams
  | readModelC
  | readOut1
  | readOut2
  | readOut3
deriving DecidableEq

/-- The list returned by `load_results` (lines 138-140), with the nine
scalars grouped in `params`. -/
structure LoadResult where
  params : ProgParams
  y : List (List ℚ)
  t : List ℚ
  T : List ℚ
  specieslist : List String
  speciesindices : String → Option ℕ
  indices_to_species : ℕ → Option String

/-- `load_results`: check `results_dir` exists (line 67), unpickle the
parameters (lines 70-81), check the mandatory first results file exists
(line 83), parse the species enumeration from `model.c` (lines 87-104),
build the index dicts and sort the species list (lines 108-114), read
segment 1 and concatenate optional segments 2 and 3 (lines 117-136).
Alongside the result, the list of successful file reads is returned. -/
def load_results (pf : String → ℚ) (fs : FS) :
    Except LoadError LoadResult × List ReadEvent :=
  if fs.results_dir_exists = false then
    (Except.error LoadError.ConfigurationError, [])
  else
    match fs.prog_params with
    | none => (Except.error LoadError.MissingParamsFile, [])
    | some pp =>
      match fs.out1 with
      | none => (Except.error LoadError.InputFormatError, [ReadEvent.readParams])
      | some f1 =>
        match fs.modelc_species with
        | none => (Except.error LoadError.MissingModelFile, [ReadEvent.readParams])
        | some enum0 =>
          let s1 := read_results_files pf f1
          let withSeg2 :=
            match fs.out2 with
            | some f2 => (combine_segment s1 (read_results_files pf f2),
                          [ReadEvent.readOut2])
            | none => (s1, [])
          let withSeg3 :=
            match fs.out3 with
            | some f3 => (combine_segment withSeg2.1 (read_results_files pf f3),
                          [ReadEvent.readOut3])
            | none => (withSeg2.1, [])
          (Except.ok
            { params := pp,
              y := withSeg3.1.2.1,
              t := withSeg3.1.1,
              T := withSeg3.1.2.2,
              specieslist := pySort enum0,
              speciesindices := speciesindices_of enum0,
              indices_to_species := indices_to_species_of enum0 },
           [ReadEvent.readParams, ReadEvent.readModelC, ReadEvent.readOut1]
             ++ withSeg2.2 ++ withSeg3.2)

/-! ### `tar_elem_analysis` (lines 185-265) -/

/-- Elemental analysis at time 0 (lines 231-238): sum, over species with
nonzero initial concentration, of concentration times elemental
contribution. -/
def ea0_vec (MW : List Entry) (ind : String → ℕ) (y : ℕ → ℕ → ℚ) (k : Fin 3) : ℚ :=
  (MW.map (fun e => if y 0 (ind e.name) ≠ 0 then y 0 (ind e.name) * e.elem k else 0)).sum

/-- Elemental analysis of tars at a later time (lines 248-254): sum over
species whose phase tag is in `set(['t', 'lt', 'H2O'])`. -/
def ea_vec (MW : List Entry) (ind : String → ℕ) (y : ℕ → ℕ → ℚ) (tIndex : ℕ)
    (k : Fin 3) : ℚ :=
  (MW.map (fun e => if e.phase ∈ tarTags then y tIndex (ind e.name) * e.elem k else 0)).sum

/-- The fixed atomic weights `[12.011, 1.0079, 15.999]` used at lines
259-260. -/
def atomicW : Fin 3 → ℚ :=
  fun k => if k = 0 then 12011 / 1000 else if k = 1 then 10079 / 10000 else 15999 / 1000

/-- `v / v.sum()` under numpy division. -/
def normalize3 (v : Fin 3 → ℚ) : Fin 3 → PyFloat := fun k => fdiv (v k) (sum3 v)

/-- The tuple returned by `tar_elem_analysis` (line 264), minus the
descriptive `choice` string. -/
structure TarElem where
  ea0 : Fin 3 → ℚ
  ea : Fin 3 → ℚ
  ea0_molpercent : Fin 3 → PyFloat
  ea_molpercent : Fin 3 → PyFloat
  ea0_wtpercent : Fin 3 → PyFloat
  ea_wtpercent : Fin 3 → PyFloat
  t_index : ℕ

/-- `tar_elem_analysis(speciesindices, y, t, t_choice)`: `t_choice` is
`none` for the default `'end'` (then `t_index = len(t) - 1`) or
`some i` for an explicit index. -/
def tar_elem_analysis (MW : List Entry) (ind : String → ℕ) (y : ℕ → ℕ → ℚ)
    (t : List ℚ) (t_choice : Option ℕ) : TarElem :=
  let t_index := match t_choice with
    | none => t.length - 1
    | some i => i
  let ea0 := fun k => ea0_vec MW ind y k
  let ea := fun k => ea_vec MW ind y t_index k
  { ea0 := ea0,
    ea := ea,
    ea0_molpercent := normalize3 ea0,
    ea_molpercent := normalize3 ea,
    ea0_wtpercent := normalize3 (fun k => ea0 k * atomicW k),
    ea_wtpercent := normalize3 (fun k => ea k * atomicW k),
    t_index := t_index }

/-! ### `C_fun_gen` (lines 268-324) -/

/-- The unnormalized functional-group accumulation of `C_fun_gen`
(lines 299-321): in `['initial']` mode the time index is forced to 0 and
species are gated on nonzero initial concentration; otherwise species
are filtered by phase tag membership in `fractions`. -/
def C_fun_raw (MW : List Entry) (fractions : List String) (ind : String → ℕ)
    (y : ℕ → ℕ → ℚ) (time : ℕ) (k : Fin 7) : ℚ :=
  (MW.map (fun e =>
    if fractions = ["initial"] then
      (if y 0 (ind e.name) ≠ 0 then y 0 (ind e.name) * e.cfun k else 0)
    else
      (if e.phase ∈ fractions then y time (ind e.name) * e.cfun k else 0))).sum

/-- `C_fun_gen` with the final normalization `C_fun /= C_fun.sum()`
(line 322), under numpy division. -/
def C_fun_gen (MW : List Entry) (fractions : List String) (ind : String → ℕ)
    (y : ℕ → ℕ → ℚ) (time : ℕ) : Fin 7 → PyFloat :=
  fun k => fdiv (C_fun_raw MW fractions ind y time k)
    (sum7 (fun j => C_fun_raw MW fractions ind y time j))

/-! ### `lump_species` (lines 327-388) -/

/-- The column of the 8-column lumped matrix a phase tag contributes to
(the if/elif chain at lines 359-378), `none` for an unrecognized tag
(the `else` print at line 380). -/
def phaseColumn : String → Option (Fin 8)
  | "s" => some 0
  | "t" => some 1
  | "lt" => some 2
  | "g" => some 3
  | "CO" => some 4
  | "CO2" => some 5
  | "H2O" => some 6
  | "char" => some 7
  | _ => none

/-- One row of the `lumped` output of `lump_species`: column `c` is the
sum of mass fractions of species whose phase tag maps to column `c`. -/
def lumped_row (MW : List Entry) (ind : String → ℕ) (m : ℕ → ℕ → ℚ) (row : ℕ)
    (c : Fin 8) : ℚ :=
  (MW.map (fun e => if phaseColumn e.phase = some c then m row (ind e.name) else 0)).sum

/-- One row of the `phenolic_families` output: heavy tars split by the
subfamily tag `'p'` (column 0) vs `'s'` (column 1), lines 363-366. -/
def phenolic_row (MW : List Entry) (ind : String → ℕ) (m : ℕ → ℕ → ℚ) (row : ℕ)
    (c : Fin 2) : ℚ :=
  (MW.map (fun e =>
    if e.phase = "t" ∧ e.subfam = (if c = 0 then "p" else "s") then
      m row (ind e.name) else 0)).sum

/-- One row of the `morelumped` output (lines 383-386):
solids+char, heavy tar+light tar+water, gas+CO+CO2. -/
def morelumped_row (MW : List Entry) (ind : String → ℕ) (m : ℕ → ℕ → ℚ) (row : ℕ)
    (c : Fin 3) : ℚ :=
  if c = 0 then lumped_row MW ind m row 0 + lumped_row MW ind m row 7
  else if c = 1 then
    lumped_row MW ind m row 1 + lumped_row MW ind m row 2 + lumped_row MW ind m row 6
  else
    lumped_row MW ind m row 3 + lumped_row MW ind m row 4 + lumped_row MW ind m row 5

/-! ### `generate_report` moisture content (lines 451-458) -/

/-- The `mtot` accumulation of `generate_report`: for every species
tagged `'t'`, `'lt'` or `'H2O'`, add its mass fraction at `t_index`
(the `[0]`-initialized accumulator broadcasts to a single scalar
sum). -/
def mtot_report (MW : List Entry) (ind : String → ℕ) (m : ℕ → ℕ → ℚ)
    (tIndex : ℕ) : ℚ :=
  MW.foldl (fun acc e => if e.phase ∈ tarTags then acc + m tIndex (ind e.name) else acc) 0

/-- `mc = m[t_index, speciesindices['H2O']] / mtot` (line 457), under
numpy division. -/
def moisture_content (MW : List Entry) (ind : String → ℕ) (m : ℕ → ℕ → ℚ)
    (tIndex : ℕ) : PyFloat :=
  fdiv (m tIndex (ind "H2O")) (mtot_report MW ind m tIndex)

/-- The moisture content printed by `generate_report`: it uses the
`t_index` of `tar_elem_analysis(speciesindices, y, t)` with the default
`'end'` choice (lines 419-420 and 457). -/
def report_moisture (MW : List Entry) (ind : String → ℕ) (y m : ℕ → ℕ → ℚ)
    (t : List ℚ) : PyFloat :=
  moisture_content MW ind m (tar_elem_analysis MW ind y t none).t_index

/-! ## Helper lemmas -/

/-- Normalizing a 3-vector by a nonzero sum gives components summing to 1. -/
lemma sumF3_normalize3 (v : Fin 3 → ℚ) (h : sum3 v ≠ 0) :
    sumF3 (normalize3 v) = PyFloat.val 1 := by
  simp only [sumF3, normalize3, fdiv, if_neg h, PyFloat.add]
  rw [div_add_div_same, div_add_div_same]
  have hv : v 0 + v 1 + v 2 = sum3 v := rfl
  rw [hv, div_self h]

/-- Normalizing the all-zero 3-vector gives `nan` in every component. -/
lemma normalize3_zero (v : Fin 3 → ℚ) (h : ∀ k, v k = 0) (k : Fin 3) :
    normalize3 v k = PyFloat.nan := by
  have hs : sum3 v = 0 := by simp [sum3, h]
  simp [normalize3, fdiv, hs, h k]

/-! ## C6 -/

/-- Claim C6: whenever the underlying elemental sum is nonzero, each
mole-percentage vector returned by `tar_elem_analysis` sums to 1; the
weight-percentage vectors are the elemental vectors scaled by the atomic
weights 12.011, 1.0079, 15.999 and then normalized, and likewise sum
to 1 when their sum is nonzero. -/
theorem elem_percent_sums_to_one (MW : List Entry) (ind : String → ℕ)
    (y : ℕ → ℕ → ℚ) (t : List ℚ) (tc : Option ℕ)
    (h1 : sum3 (tar_elem_analysis MW ind y t tc).ea0 ≠ 0)
    (h2 : sum3 (tar_elem_analysis MW ind y t tc).ea ≠ 0)
    (h3 : sum3 (fun k => (tar_elem_analysis MW ind y t tc).ea0 k * atomicW k) ≠ 0)
    (h4 : sum3 (fun k => (tar_elem_analysis MW ind y t tc).ea k * atomicW k) ≠ 0) :
    sumF3 (tar_elem_analysis MW ind y t tc).ea0_molpercent = PyFloat.val 1 ∧
    sumF3 (tar_elem_analysis MW ind y t tc).ea_molpercent = PyFloat.val 1 ∧
    (tar_elem_analysis MW ind y t tc).ea0_wtpercent
      = normalize3 (fun k => (tar_elem_analysis MW ind y t tc).ea0 k * atomicW k) ∧
    (tar_elem_analysis MW ind y t tc).ea_wtpercent
      = normalize3 (fun k => (tar_elem_analysis MW ind y t tc).ea k * atomicW k) ∧
    sumF3 (tar_elem_analysis MW ind y t tc).ea0_wtpercent = PyFloat.val 1 ∧
    sumF3 (tar_elem_analysis MW ind y t tc).ea_wtpercent = PyFloat.val 1 :=
  ⟨sumF3_normalize3 _ h1, sumF3_normalize3 _ h2, rfl, rfl,
   sumF3_normalize3 _ h3, sumF3_normalize3 _ h4⟩

/-- A one-species table used for concrete witnesses: a heavy tar with
all contribution vectors 1. -/
def wEntry : Entry :=
  { name := "PLIGC", mw := 0, phase := "t", subfam := "p",
    elem := fun _ => 1, cfun := fun _ => 1 }

/-- Witness input: the one-entry table. -/
def wMW : List Entry := [wEntry]

/-- Witness index map: every species in column 0. -/
def wInd : String → ℕ := fun _ => 0

/-- Witness concentration matrix: constant 1. -/
def wY : ℕ → ℕ → ℚ := fun _ _ => 1

/-- Witness of C6 at a concrete one-species input. -/
theorem elem_percent_sums_to_one_witness :
    sumF3 (tar_elem_analysis wMW wInd wY [0] none).ea0_molpercent = PyFloat.val 1 ∧
    sumF3 (tar_elem_analysis wMW wInd wY [0] none).ea_molpercent = PyFloat.val 1 ∧
    (tar_elem_analysis wMW wInd wY [0] none).ea0_wtpercent
      = normalize3 (fun k => (tar_elem_analysis wMW wInd wY [0] none).ea0 k * atomicW k) ∧
    (tar_elem_analysis wMW wInd wY [0] none).ea_wtpercent
      = normalize3 (fun k => (tar_elem_analysis wMW wInd wY [0] none).ea k * atomicW k) ∧
    sumF3 (tar_elem_analysis wMW wInd wY [0] none).ea0_wtpercent = PyFloat.val 1 ∧
    sumF3 (tar_elem_analysis wMW wInd wY [0] none).ea_wtpercent = PyFloat.val 1 :=
  elem_percent_sums_to_one wMW wInd wY [0] none
    (by simp [tar_elem_analysis, ea0_vec, wMW, wEntry, wInd, wY, sum3]; norm_num)
    (by simp [tar_elem_analysis, ea_vec, wMW, wEntry, wInd, wY, sum3, tarTags]; norm_num)
    (by simp [tar_elem_analysis, ea0_vec, wMW, wEntry, wInd, wY, sum3, atomicW]; norm_num)
    (by simp [tar_elem_analysis, ea_vec, wMW, wEntry, wInd, wY, sum3, atomicW, tarTags]; norm_num)

/-! ## C8 -/

/-- Claim C8: when no species matches the tag filter, `tar_elem_analysis`
and `C_fun_gen` raise nothing: the unnormalized aggregates are all-zero
and the normalized outputs are `nan`, returned as ordinary values. -/
theorem empty_filter_yields_nan (MW : List Entry) (ind : String → ℕ)
    (y : ℕ → ℕ → ℚ) (t : List ℚ) (tc : Option ℕ)
    (fractions : List String) (time : ℕ)
    (htar : ∀ e ∈ MW, e.phase ∉ tarTags)
    (hfr : fractions ≠ ["initial"])
    (hmatch : ∀ e ∈ MW, e.phase ∉ fractions) :
    (∀ k, (tar_elem_analysis MW ind y t tc).ea k = 0) ∧
    (∀ k, (tar_elem_analysis MW ind y t tc).ea_molpercent k = PyFloat.nan) ∧
    (∀ k, (tar_elem_analysis MW ind y t tc).ea_wtpercent k = PyFloat.nan) ∧
    (∀ k, C_fun_raw MW fractions ind y time k = 0) ∧
    (∀ k, C_fun_gen MW fractions ind y time k = PyFloat.nan) := by
  have hea : ∀ tI k, ea_vec MW ind y tI k = 0 := by
    intro tI k
    refine List.sum_eq_zero ?_
    intro x hx
    simp only [List.mem_map] at hx
    obtain ⟨e, he, rfl⟩ := hx
    rw [if_neg (htar e he)]
  have hraw : ∀ k, C_fun_raw MW fractions ind y time k = 0 := by
    intro k
    refine List.sum_eq_zero ?_
    intro x hx
    simp only [List.mem_map] at hx
    obtain ⟨e, he, rfl⟩ := hx
    rw [if_neg hfr, if_neg (hmatch e he)]
  refine ⟨fun k => hea _ k, ?_, ?_, hraw, ?_⟩
  · intro k
    exact normalize3_zero _ (fun j => hea _ j) k
  · intro k
    refine normalize3_zero _ (fun j => ?_) k
    simp only [hea, zero_mul]
  · intro k
    have hs : sum7 (fun j => C_fun_raw MW fractions ind y time j) = 0 := by
      simp [sum7, hraw]
    simp [C_fun_gen, fdiv, hs, hraw k]

/-- A one-species table whose species is a solid, so that the tar filter
and a gas-only filter both match nothing. -/
def w8Entry : Entry :=
  { name := "CELL", mw := 0, phase := "s", subfam := "",
    elem := fun _ => 1, cfun := fun _ => 1 }

/-- Witness table for C8. -/
def w8MW : List Entry := [w8Entry]

/-- Witness of C8: a solid-only table against the gas filter `['g']`. -/
theorem empty_filter_yields_nan_witness :
    (∀ k, (tar_elem_analysis w8MW wInd wY [0] none).ea k = 0) ∧
    (∀ k, (tar_elem_analysis w8MW wInd wY [0] none).ea_molpercent k = PyFloat.nan) ∧
    (∀ k, (tar_elem_analysis w8MW wInd wY [0] none).ea_wtpercent k = PyFloat.nan) ∧
    (∀ k, C_fun_raw w8MW ["g"] wInd wY 0 k = 0) ∧
    (∀ k, C_fun_gen w8MW ["g"] wInd wY 0 k = PyFloat.nan) :=
  empty_filter_yields_nan w8MW wInd wY [0] none ["g"] 0
    (by decide) (by decide) (by decide)

/-! ## C10 -/

/-- Claim C10: `C_fun_gen` called with `fractions = ['initial']` is
independent of the time argument, since the computation always uses the
t = 0 row gated on nonzero initial concentration. -/
theorem cfun_initial_time_independent (MW : List Entry) (ind : String → ℕ)
    (y : ℕ → ℕ → ℚ) (t1 t2 : ℕ) :
    C_fun_gen MW ["initial"] ind y t1 = C_fun_gen MW ["initial"] ind y t2 := by
  funext k
  simp [C_fun_gen, C_fun_raw]

/-! ## C9 -/

/-- A guarded `foldl` accumulation equals the sum over the filtered
list. -/
lemma foldl_if_add (MW : List Entry) (g : Entry → ℚ) (P : Entry → Prop)
    [DecidablePred P] (c : ℚ) :
    MW.foldl (fun acc e => if P e then acc + g e else acc) c
      = c + ((MW.filter (fun e => decide (P e))).map g).sum := by
  induction MW generalizing c with
  | nil => simp
  | cons e l ih =>
    by_cases h : P e
    · simp [List.foldl_cons, if_pos h, ih, List.filter_cons, h]
      ring
    · simp [List.foldl_cons, if_neg h, ih, List.filter_cons, h]

/-- Claim C9: the tar moisture content printed by `generate_report`
equals the mass fraction of water at the analysis time index (the last
time row) divided by the sum, over every species tagged `'t'`, `'lt'`
or `'H2O'`, of that species' mass fraction at the same index. -/
theorem moisture_content_eq (MW : List Entry) (ind : String → ℕ)
    (y m : ℕ → ℕ → ℚ) (t : List ℚ) :
    report_moisture MW ind y m t
      = fdiv (m (t.length - 1) (ind "H2O"))
          (((MW.filter (fun e => decide (e.phase ∈ tarTags))).map
              (fun e => m (t.length - 1) (ind e.name))).sum) := by
  unfold report_moisture moisture_content mtot_report
  have ht : (tar_elem_analysis MW ind y t none).t_index = t.length - 1 := rfl
  rw [ht, foldl_if_add MW (fun e => m (t.length - 1) (ind e.name))
    (fun e => e.phase ∈ tarTags), zero_add]

/-! ## C7 -/

/-- Splitting the head off a lumped-row sum. -/
lemma lumped_row_cons (e : Entry) (MW : List Entry) (ind : String → ℕ)
    (m : ℕ → ℕ → ℚ) (row : ℕ) (c : Fin 8) :
    lumped_row (e :: MW) ind m row c
      = (if phaseColumn e.phase = some c then m row (ind e.name) else 0)
        + lumped_row MW ind m row c := by
  simp [lumped_row]

/-- `sum8` distributes over pointwise addition. -/
lemma sum8_add (a b : Fin 8 → ℚ) :
    sum8 (fun c => a c + b c) = sum8 a + sum8 b := by
  simp only [sum8]
  ring

/-- Summing an indicator vector over the 8 columns. -/
lemma sum8_single (p : Option (Fin 8)) (x : ℚ) :
    sum8 (fun c => if p = some c then x else 0) = if p.isSome then x else 0 := by
  cases p with
  | none => simp [sum8]
  | some j => fin_cases j <;> simp [sum8]

/-- The total of one lumped row is the total mass of the species with a
recognized phase tag. -/
lemma lumped_row_total (MW : List Entry) (ind : String → ℕ) (m : ℕ → ℕ → ℚ)
    (row : ℕ) :
    sum8 (fun c => lumped_row MW ind m row c)
      = (MW.map (fun e =>
          if (phaseColumn e.phase).isSome then m row (ind e.name) else 0)).sum := by
  induction MW with
  | nil => simp [lumped_row, sum8]
  | cons e l ih =>
    have hrow : (fun c => lumped_row (e :: l) ind m row c)
        = fun c => (if phaseColumn e.phase = some c then m row (ind e.name) else 0)
          + lumped_row l ind m row c :=
      funext fun c => lumped_row_cons e l ind m row c
    rw [hrow, sum8_add, sum8_single, ih, List.map_cons, List.sum_cons]

/-- Claim C7: for every time row, the sum over the 8 columns of the
lumped matrix equals 1 when the species with a recognized phase tag
have mass fractions summing to 1 at that row (species without a
recognized tag are excluded from all sums). -/
theorem lumped_row_sum_one (MW : List Entry) (ind : String → ℕ) (m : ℕ → ℕ → ℚ)
    (row : ℕ)
    (h : (MW.map (fun e =>
        if (phaseColumn e.phase).isSome then m row (ind e.name) else 0)).sum = 1) :
    sum8 (fun c => lumped_row MW ind m row c) = 1 := by
  rw [lumped_row_total, h]

/-- Witness of C7 at the concrete one-species table with unit mass
fraction. -/
theorem lumped_row_sum_one_witness :
    sum8 (fun c => lumped_row wMW wInd (fun _ _ => 1) 0 c) = 1 :=
  lumped_row_sum_one wMW wInd (fun _ _ => 1) 0
    (by simp [wMW, wEntry, wInd, phaseColumn])

/-! ## C1 -/

/-- In a non-decreasing list every element is at most the last one. -/
lemma le_getLastD_of_sorted :
    ∀ (l : List ℚ) (d : ℚ), l.Sorted (· ≤ ·) → ∀ x ∈ l, x ≤ l.getLastD d := by
  intro l
  induction l with
  | nil => intro d _ x hx; cases hx
  | cons a tl ih =>
    intro d hs x hx
    rw [List.getLastD_cons]
    rcases List.mem_cons.mp hx with rfl | hx'
    · cases tl with
      | nil => simp [List.getLastD]
      | cons b tl2 =>
        have hab : x ≤ b := (List.pairwise_cons.mp hs).1 b (List.mem_cons_self b tl2)
        have hb : b ≤ (b :: tl2).getLastD x :=
          ih x (List.pairwise_cons.mp hs).2 b (List.mem_cons_self b tl2)
        exact le_trans hab hb
    · exact ih a (List.pairwise_cons.mp hs).2 x hx'

/-- In a non-decreasing non-empty list the head is at most every
element. -/
lemma headD_le_of_sorted (l : List ℚ) (hs : l.Sorted (· ≤ ·))
    (x : ℚ) (hx : x ∈ l) : l.headD 0 ≤ x := by
  cases l with
  | nil => cases hx
  | cons a tl =>
    rcases List.mem_cons.mp hx with rfl | hx'
    · simp
    · simpa using (List.pairwise_cons.mp hs).1 x hx'

/-- Claim C1: concatenating two non-empty segments drops the second
segment's first row (combined length `n1 + n2 - 1`), offsets the later
timestamps by the running end time, and yields a non-decreasing
combined sequence whenever both segments are non-decreasing and the
second starts at a non-negative relative time. -/
theorem segment_concat_spec (t1 t2 : List ℚ)
    (_h1 : t1 ≠ []) (h2 : t2 ≠ [])
    (hs1 : t1.Sorted (· ≤ ·)) (hs2 : t2.Sorted (· ≤ ·))
    (hnn : 0 ≤ t2.headD 0) :
    (combine_t t1 t2).length = t1.length + t2.length - 1 ∧
    (∀ i : ℕ, i + 1 < t2.length →
      (combine_t t1 t2)[t1.length + i]? = some (t1.getLastD 0 + t2[i + 1]?.getD 0)) ∧
    (combine_t t1 t2).Sorted (· ≤ ·) := by
  refine ⟨?_, ?_, ?_⟩
  · have hl2 : 0 < t2.length := List.length_pos.mpr h2
    simp only [combine_t, List.length_append, List.length_map, List.length_drop]
    omega
  · intro i hi
    have hle : t1.length ≤ t1.length + i := Nat.le_add_right _ _
    rw [combine_t, List.getElem?_append_right hle]
    have hsub : t1.length + i - t1.length = i := by omega
    rw [hsub, List.getElem?_map, List.getElem?_drop, Nat.add_comm 1 i,
      List.getElem?_eq_getElem hi]
    simp
  · rw [combine_t]
    refine List.pairwise_append.mpr ⟨hs1, ?_, ?_⟩
    · refine List.Pairwise.map _ ?_ hs2.drop
      intro a b hab
      exact add_le_add_left hab _
    · intro x hx z hz
      simp only [List.mem_map] at hz
      obtain ⟨w, hw, rfl⟩ := hz
      have hw2 : w ∈ t2 := List.mem_of_mem_drop hw
      have h0w : 0 ≤ w := le_trans hnn (headD_le_of_sorted t2 hs2 w hw2)
      have hxl : x ≤ t1.getLastD 0 := le_getLastD_of_sorted t1 0 hs1 x hx
      linarith

/-- Witness of C1 on two concrete three-point segments. -/
theorem segment_concat_spec_witness :
    (combine_t [0, 1, 2] [0, 3, 5]).length = 3 + 3 - 1 ∧
    (∀ i : ℕ, i + 1 < ([0, 3, 5] : List ℚ).length →
      (combine_t [0, 1, 2] [0, 3, 5])[([0, 1, 2] : List ℚ).length + i]?
        = some (([0, 1, 2] : List ℚ).getLastD 0 + (([0, 3, 5] : List ℚ)[i + 1]?).getD 0)) ∧
    (combine_t [0, 1, 2] [0, 3, 5]).Sorted (· ≤ ·) :=
  segment_concat_spec [0, 1, 2] [0, 3, 5] (by simp) (by simp)
    (by norm_num) (by norm_num) (by norm_num)

/-! ## C4 -/

/-- Claim C4: `load_results` fails with the configuration error when the
results directory does not exist, performing no file reads at all
(no partial state), and fails with the input-format error when the
directory exists, the parameter record is readable, and the mandatory
first segment file is missing. -/
theorem load_results_error_paths (pf : String → ℚ) (fs1 fs2 : FS) (pp : ProgParams)
    (hdir : fs1.results_dir_exists = false)
    (hdir2 : fs2.results_dir_exists = true)
    (hpp : fs2.prog_params = some pp)
    (hout : fs2.out1 = none) :
    load_results pf fs1 = (Except.error LoadError.ConfigurationError, []) ∧
    (load_results pf fs2).1 = Except.error LoadError.InputFormatError := by
  constructor
  · simp [load_results, hdir]
  · simp [load_results, hdir2, hpp, hout]

/-- A concrete parameter record for witnesses. -/
def wPP : ProgParams :=
  { end_time := 0, output_time_step := 0, initial_T := 0, heating_rate := 0,
    max_T := 0, atol := 0, rtol := 0, plant := "", cool_time := 0 }

/-- Witness filesystem with no results directory. -/
def wFS1 : FS :=
  { results_dir_exists := false, prog_params := none, modelc_species := none,
    out1 := none, out2 := none, out3 := none }

/-- Witness filesystem with the directory and parameters present but the
mandatory first segment file missing. -/
def wFS2 : FS :=
  { results_dir_exists := true, prog_params := some wPP, modelc_species := none,
    out1 := none, out2 := none, out3 := none }

/-- Witness of C4 at the two concrete filesystems. -/
theorem load_results_error_paths_witness :
    load_results (fun _ => 0) wFS1 = (Except.error LoadError.ConfigurationError, []) ∧
    (load_results (fun _ => 0) wFS2).1 = Except.error LoadError.InputFormatError :=
  load_results_error_paths (fun _ => 0) wFS1 wFS2 wPP rfl rfl rfl rfl

/-! ## Dict and sort lemmas for C2 and C3 -/

/-- Enumerated pairs `(name, index)` starting at `i`: the value of the
`speciesindices` dict on a duplicate-free list. -/
def enumSwap (i : ℕ) : List String → List (String × ℕ)
  | [] => []
  | s :: rest => (s, i) :: enumSwap (i + 1) rest

/-- Inserting a fresh key appends. -/
lemma upsert_of_fresh (d : List (String × ℕ)) (k : String) (v : ℕ)
    (h : ∀ p ∈ d, p.1 ≠ k) : upsert d k v = d ++ [(k, v)] := by
  unfold upsert
  rw [if_neg]
  simp only [List.any_eq_true, decide_eq_true_eq, not_exists]
  intro p hcon
  exact h p hcon.1 hcon.2

/-- On a duplicate-free list whose names are fresh for the accumulator,
the index-building loop appends the enumerated pairs. -/
lemma buildIndices_of_nodup :
    ∀ (l : List String) (d : List (String × ℕ)) (i : ℕ), l.Nodup →
      (∀ p ∈ d, p.1 ∉ l) → buildIndices d i l = d ++ enumSwap i l := by
  intro l
  induction l with
  | nil => intro d i _ _; simp [buildIndices, enumSwap]
  | cons s rest ih =>
    intro d i hnd hdisj
    have hfresh : ∀ p ∈ d, p.1 ≠ s := by
      intro p hp he
      exact hdisj p hp (he ▸ List.mem_cons_self s rest)
    rw [buildIndices, upsert_of_fresh d s i hfresh, ih (d ++ [(s, i)]) (i + 1)
      (List.nodup_cons.mp hnd).2 ?_, enumSwap]
    · simp
    · intro p hp
      rcases List.mem_append.mp hp with hpd | hps
      · intro hmem
        exact hdisj p hpd (List.mem_cons_of_mem s hmem)
      · intro hmem
        simp only [List.mem_singleton] at hps
        rw [hps] at hmem
        exact (List.nodup_cons.mp hnd).1 hmem

/-- On a duplicate-free list the `speciesindices` dict is exactly the
enumerated association list. -/
lemma speciesindices_assoc_eq (l : List String) (hnd : l.Nodup) :
    speciesindices_assoc l = enumSwap 0 l := by
  have := buildIndices_of_nodup l [] 0 hnd (by simp)
  simpa [speciesindices_assoc] using this

/-- Looking up the `j`-th name in the enumerated dict yields `i + j`. -/
lemma assocLookup_enumSwap :
    ∀ (l : List String) (i j : ℕ) (hj : j < l.length), l.Nodup →
      assocLookup (l.get ⟨j, hj⟩) (enumSwap i l) = some (i + j) := by
  intro l
  induction l with
  | nil => intro i j hj _; exact absurd hj (by simp)
  | cons s rest ih =>
    intro i j hj hnd
    cases j with
    | zero => simp [enumSwap, assocLookup]
    | succ j' =>
      have hj' : j' < rest.length := by
        simpa using hj
      have hget : (s :: rest).get ⟨j' + 1, hj⟩ = rest.get ⟨j', hj'⟩ := rfl
      rw [hget, enumSwap, assocLookup, if_neg, ih (i + 1) j' hj'
        (List.nodup_cons.mp hnd).2]
      · congr 1
        omega
      · intro he
        apply (List.nodup_cons.mp hnd).1
        have hs' : s = rest.get ⟨j', hj'⟩ := he
        rw [hs']
        exact rest.get_mem _ _

/-- Looking up index `i + j` in the reversed dict yields the `j`-th
name. -/
lemma assocLookup_swap_enumSwap :
    ∀ (l : List String) (i j : ℕ) (hj : j < l.length),
      assocLookup (i + j) ((enumSwap i l).map (fun p => (p.2, p.1)))
        = some (l.get ⟨j, hj⟩) := by
  intro l
  induction l with
  | nil => intro i j hj; exact absurd hj (by simp)
  | cons s rest ih =>
    intro i j hj
    cases j with
    | zero => simp [enumSwap, assocLookup]
    | succ j' =>
      have hj' : j' < rest.length := by
        simpa using hj
      have hkey : i + (j' + 1) = (i + 1) + j' := by omega
      rw [enumSwap, List.map_cons, assocLookup, if_neg (by simp), hkey,
        ih (i + 1) j' hj']
      rfl

/-- Membership in an insertion step. -/
lemma mem_insertSpec (x s : String) (ts : List String) :
    x ∈ insertSpec s ts ↔ x = s ∨ x ∈ ts := by
  induction ts with
  | nil => simp [insertSpec]
  | cons t tl ih =>
    unfold insertSpec
    by_cases h : strLeB s t
    · simp [h]
    · simp [h, ih]
      tauto

/-- Sorting does not change membership. -/
lemma mem_pySort (x : String) (l : List String) : x ∈ pySort l ↔ x ∈ l := by
  induction l with
  | nil => simp [pySort]
  | cons s rest ih =>
    have hps : pySort (s :: rest) = insertSpec s (pySort rest) := rfl
    rw [hps, mem_insertSpec, ih]
    simp

/-- The code-point comparison is total. -/
lemma charListLe_total : ∀ (a b : List Char),
    charListLe a b = true ∨ charListLe b a = true := by
  intro a
  induction a with
  | nil => intro b; left; rfl
  | cons x xs ih =>
    intro b
    cases b with
    | nil => right; rfl
    | cons y ys =>
      rcases Nat.lt_trichotomy x.val.toNat y.val.toNat with h | h | h
      · left
        simp [charListLe, h]
      · have h1 : ¬x.val.toNat < y.val.toNat := by omega
        have h2 : ¬y.val.toNat < x.val.toNat := by omega
        simpa [charListLe, h1, h2] using ih ys
      · right
        simp [charListLe, h]

/-- The string comparison is total. -/
lemma strLeB_total (a b : String) : strLeB a b = true ∨ strLeB b a = true :=
  charListLe_total a.data b.data

/-- Inserting into a non-decreasing list keeps it non-decreasing. -/
lemma chain_insertSpec (s : String) :
    ∀ (ts : List String), ts.Chain' (fun a b => strLeB a b = true) →
      (insertSpec s ts).Chain' (fun a b => strLeB a b = true) := by
  intro ts
  induction ts with
  | nil => intro _; simp [insertSpec]
  | cons t tl ih =>
    intro h
    unfold insertSpec
    by_cases hle : strLeB s t
    · rw [if_pos hle]
      exact List.chain'_cons.mpr ⟨hle, h⟩
    · rw [if_neg hle]
      have hts : strLeB t s = true :=
        (strLeB_total s t).resolve_left (by simpa using hle)
      refine List.chain'_cons'.mpr ⟨?_, ih h.tail⟩
      intro z hz
      cases tl with
      | nil =>
        simp [insertSpec] at hz
        subst hz
        exact hts
      | cons u ul =>
        by_cases hsu : strLeB s u
        · simp [insertSpec, hsu] at hz
          subst hz
          exact hts
        · simp [insertSpec, hsu] at hz
          subst hz
          exact (List.chain'_cons.mp h).1

/-- The sorted species list is non-decreasing in the Python string
order. -/
lemma pySort_chain (l : List String) :
    (pySort l).Chain' (fun a b => strLeB a b = true) := by
  induction l with
  | nil => simp [pySort]
  | cons s rest ih => exact chain_insertSpec s (pySort rest) ih

/-! ## C3 -/

/-- Round trip through the two dicts for any member of a duplicate-free
species list. -/
lemma roundtrip_core (l : List String) (hnd : l.Nodup) (s : String) (hs : s ∈ l) :
    ∃ i, speciesindices_of l s = some i ∧ indices_to_species_of l i = some s := by
  obtain ⟨⟨j, hj⟩, rfl⟩ := List.mem_iff_get.mp hs
  refine ⟨j, ?_, ?_⟩
  · unfold speciesindices_of
    rw [speciesindices_assoc_eq l hnd]
    simpa using assocLookup_enumSwap l 0 j hj hnd
  · unfold indices_to_species_of
    rw [speciesindices_assoc_eq l hnd]
    simpa using assocLookup_swap_enumSwap l 0 j hj

/-- Claim C3: for every species name in the species list returned by
`load_results`, the two returned index mappings form a bijection:
`indices_to_species[speciesindices[s]] == s`. -/
theorem species_index_roundtrip (pf : String → ℚ) (fs : FS) (l : List String)
    (res : LoadResult) (hm : fs.modelc_species = some l) (hnd : l.Nodup)
    (hok : (load_results pf fs).1 = Except.ok res)
    (s : String) (hs : s ∈ res.specieslist) :
    ∃ i, res.speciesindices s = some i ∧ res.indices_to_species i = some s := by
  unfold load_results at hok
  by_cases hd : fs.results_dir_exists = false
  · rw [if_pos hd] at hok
    simp at hok
  · rw [if_neg hd] at hok
    cases hpp : fs.prog_params with
    | none =>
      rw [hpp] at hok
      simp at hok
    | some pp =>
      rw [hpp] at hok
      cases ho1 : fs.out1 with
      | none =>
        rw [ho1] at hok
        simp at hok
      | some f1 =>
        rw [ho1, hm] at hok
        simp only [Except.ok.injEq] at hok
        rw [← hok] at hs ⊢
        exact roundtrip_core l hnd s ((mem_pySort s l).mp hs)

/-- Concrete filesystem for the loader witnesses: everything present,
species enumeration `["B", "A"]`, an empty first results file. -/
def wFS3 : FS :=
  { results_dir_exists := true, prog_params := some wPP,
    modelc_species := some ["B", "A"], out1 := some [],
    out2 := none, out3 := none }

/-- The loader result on `wFS3` (total by construction). -/
def wRes : LoadResult :=
  match (load_results (fun _ => 0) wFS3).1 with
  | Except.ok r => r
  | Except.error _ =>
    { params := wPP, y := [], t := [], T := [], specieslist := [],
      speciesindices := fun _ => none, indices_to_species := fun _ => none }

/-- Witness of C3 on the concrete loaded result. -/
theorem species_index_roundtrip_witness :
    ∃ i, wRes.speciesindices "A" = some i ∧ wRes.indices_to_species i = some "A" :=
  species_index_roundtrip (fun _ => 0) wFS3 ["B", "A"] wRes rfl (by decide) rfl
    "A" (by decide)

/-! ## C2 -/

/-- Counterexample to C2 as stated: on the solver order `["B", "A"]`,
the returned species list is alphabetical (`["A", "B"]`), yet the
alphabetically first species `"A"` is mapped to index 1, not 0: the
dicts are built before the sort and keep the solver's order. -/
theorem speciesindices_not_alphabetical :
    wRes.specieslist = ["A", "B"] ∧
    wRes.specieslist.getD 0 "" = "A" ∧
    wRes.speciesindices "A" = some 1 ∧
    wRes.speciesindices "A" ≠ some 0 := by decide

/-- Claim C2 (amended): the species list returned by `load_results` is
sorted alphabetically, but `speciesindices` maps each species to its
position in the solver's original model-definition order (the column
order of `y`), not to its alphabetical rank. -/
theorem specieslist_sorted_indices_solver_order (l : List String) (hnd : l.Nodup)
    (j : ℕ) (hj : j < l.length) :
    (pySort l).Chain' (fun a b => strLeB a b = true) ∧
    speciesindices_of l (l.get ⟨j, hj⟩) = some j := by
  refine ⟨pySort_chain l, ?_⟩
  unfold speciesindices_of
  rw [speciesindices_assoc_eq l hnd]
  simpa using assocLookup_enumSwap l 0 j hj hnd

/-- Witness of the amended C2 on the concrete solver order
`["B", "A"]`. -/
theorem specieslist_sorted_indices_solver_order_witness :
    (pySort ["B", "A"]).Chain' (fun a b => strLeB a b = true) ∧
    speciesindices_of ["B", "A"] ((["B", "A"] : List String).get ⟨0, by decide⟩)
      = some 0 :=
  specieslist_sorted_indices_solver_order ["B", "A"] (by decide) 0 (by decide)

/-! ## C5 -/

/-- Claim C5 (amended): for each data line of a segment file,
`read_results_files` takes the time from the second space-token of
tab-field 0, the per-species concentrations from the tab fields between
the time field and the last two fields, and the temperature from the
second-to-last tab field (the last field is unused); the usable row
count is the total line count minus 7. -/
theorem read_results_fields (pf : String → ℚ) (lines : List (List String))
    (i : ℕ) (f : List String)
    (hf : ((lines.drop 1).take (lines.length - 7))[i]? = some f) :
    (read_results_files pf lines).1.length = lines.length - 7 ∧
    (read_results_files pf lines).1[i]?
      = some (pf ((pySplit ' ' (f.headD "")).getD 1 "")) ∧
    (read_results_files pf lines).2.1[i]?
      = some (((f.drop 1).take (f.length - 3)).map pf) ∧
    (read_results_files pf lines).2.2[i]?
      = some (pf (f.getD (f.length - 2) "")) := by
  refine ⟨?_, ?_, ?_, ?_⟩
  · simp only [read_results_files, List.length_map, List.length_take,
      List.length_drop]
    omega
  · rw [show (read_results_files pf lines).1
        = ((lines.drop 1).take (lines.length - 7)).map
            (fun f => pf ((pySplit ' ' (f.headD "")).getD 1 "")) from rfl,
      List.getElem?_map, hf]
    rfl
  · rw [show (read_results_files pf lines).2.1
        = ((lines.drop 1).take (lines.length - 7)).map
            (fun f => ((f.drop 1).take (f.length - 3)).map pf) from rfl,
      List.getElem?_map, hf]
    rfl
  · rw [show (read_results_files pf lines).2.2
        = ((lines.drop 1).take (lines.length - 7)).map
            (fun f => pf (f.getD (f.length - 2) "")) from rfl,
      List.getElem?_map, hf]
    rfl

/-- A concrete 8-line segment file: one header line, one data line with
five tab fields, six descriptive footer lines. -/
def exLines : List (List String) :=
  [["hdr"], ["lbl 1/2", "3", "4", "300", "999"],
   ["x"], ["x"], ["x"], ["x"], ["x"], ["x"]]

/-- A concrete token parser distinguishing the two trailing fields of
the data line. -/
def exPf : String → ℚ :=
  fun s => if s = "300" then 300 else if s = "999" then 999 else 0

/-- Witness of the amended C5 on the concrete segment file. -/
theorem read_results_fields_witness :
    (read_results_files exPf exLines).1.length = exLines.length - 7 ∧
    (read_results_files exPf exLines).1[0]?
      = some (exPf ((pySplit ' ' ((["lbl 1/2", "3", "4", "300", "999"] : List String).headD "")).getD 1 "")) ∧
    (read_results_files exPf exLines).2.1[0]?
      = some ((((["lbl 1/2", "3", "4", "300", "999"] : List String).drop 1).take
          ((["lbl 1/2", "3", "4", "300", "999"] : List String).length - 3)).map exPf) ∧
    (read_results_files exPf exLines).2.2[0]?
      = some (exPf ((["lbl 1/2", "3", "4", "300", "999"] : List String).getD
          ((["lbl 1/2", "3", "4", "300", "999"] : List String).length - 2) "")) :=
  read_results_fields exPf exLines 0 ["lbl 1/2", "3", "4", "300", "999"] (by decide)

/-- Counterexample to C5 as stated: on the concrete file the parsed
temperature column is `[300]`, the value of the second-to-last tab
field, while the last tab field of the data line holds `999`: the
temperature is not parsed from the last field. -/
theorem temperature_not_from_last_field :
    (read_results_files exPf exLines).2.2 = [300] ∧
    exPf ((exLines.getD 1 []).getD ((exLines.getD 1 []).length - 1) "") = 999 ∧
    (300 : ℚ) ≠ 999 := by decide
